import Mathlib

/-
Verification of the point-tiling pipeline of `build_point_tiles.py`
(repository Zoatik/iNaturalistObservationMap).

The script streams CSV rows, buckets each accepted row into one tile per
zoom level, and periodically flushes the buckets into gzip-compressed
GeoJSON tile files, appending to files that already exist.

Embedding choices:
  * Coordinates parsed from the CSV are modelled as rationals (`ℚ`); the
    Web-Mercator math of `lonlat_to_tile` is modelled over the reals.
  * Python's `int()` truncates toward zero; `pyInt` mirrors that.
  * The `defaultdict(list)` bucket map is modelled as the journal of its
    insertions (a `List (TileKey × Feature)`); `bucketGet` recovers the
    per-key lists, in insertion order, exactly as the dict stores them.
  * The tile directory is a map from tile keys to a file state: no file,
    a parsed feature collection, or a file that fails to decompress/parse
    (`corrupt`); `json.load` raising on a corrupt file is modelled by
    `flushGo` stopping and reporting the offending key.
  * Python dicts iterate in key-insertion order; `keysOf` uses `dedup`
    (which orders by last occurrence).  The keys are pairwise distinct and
    processed independently, so none of the stated results depend on the
    iteration order.
  * `DriverState.flushLog` is a ghost field recording the value of
    `rows_seen` at each periodic `flush_buckets` call; it changes nothing
    else and only makes the flush cadence observable.
-/

/-- A GeoJSON point feature as built in `main` (lines 94-95): geometry
`[lon, lat]` plus the kept properties. -/
structure Feature where
  lon : ℚ
  lat : ℚ
  props : List (String × String)
deriving DecidableEq

/-- A tile key `(z, x, y)` as used for the bucket dict. -/
abbrev TileKey := ℕ × ℤ × ℤ

/-- The in-memory bucket map, as the journal of its insertions. -/
abbrev Buckets := List (TileKey × Feature)

/-- The list held by the bucket dict at key `k` (insertion order). -/
def bucketGet (b : Buckets) (k : TileKey) : List Feature :=
  (b.filter fun e => decide (e.1 = k)).map Prod.snd

/-- On-disk state of one tile path `{out}/{z}/{x}/{y}.geojson.gz`. -/
inductive FileState where
  | absent
  | good (feats : List Feature)
  | corrupt

/-- The tile directory on disk. -/
abbrev TileStore := TileKey → FileState

/-- Writing one tile file. -/
def updateStore (st : TileStore) (k : TileKey) (v : FileState) : TileStore :=
  fun k' => if k' = k then v else st k'

/-- The feature collection of a file state (empty if no parsed file). -/
def featsOf : FileState → List Feature
  | .good l => l
  | _ => []

/-- The feature collection stored at a path (empty if no parsed file). -/
def content (st : TileStore) (k : TileKey) : List Feature :=
  featsOf (st k)

/-- No tile file in the store fails to decompress/parse. -/
def CorruptFree (st : TileStore) : Prop := ∀ k, st k ≠ FileState.corrupt

/-- Every file in the store is either absent or a nonempty parsed
collection (true of every store the pipeline itself produces). -/
def CleanStore (st : TileStore) : Prop :=
  ∀ k, st k = FileState.absent ∨ ∃ l, st k = FileState.good l ∧ l ≠ []

/-- A fresh (empty) output directory. -/
def emp : TileStore := fun _ => FileState.absent

/-- Python's `int()` on a real value: truncation toward zero. -/
noncomputable def pyInt (x : ℝ) : ℤ := if 0 ≤ x then ⌊x⌋ else ⌈x⌉

/-- Line 20: `lat = max(min(lat, 85.05112878), -85.05112878)`. -/
noncomputable def clampLat (lat : ℝ) : ℝ :=
  max (min lat 85.05112878) (-85.05112878)

/-- Line 21: `x = int((lon + 180.0) / 360.0 * (1 << z))`. -/
noncomputable def tileX (lon : ℝ) (z : ℕ) : ℤ :=
  pyInt ((lon + 180.0) / 360.0 * 2 ^ z)

/-- Line 22: `s = math.sin(math.radians(lat))` on the clamped latitude. -/
noncomputable def mercS (lat : ℝ) : ℝ :=
  Real.sin (clampLat lat * (Real.pi / 180))

/-- Line 23:
`y = int((1.0 - math.log((1.0 + s) / (1.0 - s)) / math.pi) / 2.0 * (1 << z))`. -/
noncomputable def tileY (lat : ℝ) (z : ℕ) : ℤ :=
  pyInt ((1.0 - Real.log ((1.0 + mercS lat) / (1.0 - mercS lat)) / Real.pi)
    / 2.0 * 2 ^ z)

/-- `lonlat_to_tile` (lines 18-24). -/
noncomputable def lonlat_to_tile (lon lat : ℝ) (z : ℕ) : ℤ × ℤ :=
  (tileX lon z, tileY lat z)

/-- The configuration surface of the pipeline (CLI arguments). -/
structure Config where
  minZoom : ℕ
  maxZoom : ℕ
  batch : ℕ
  keepCols : List String

/-- One CSV row as the driver sees it: the coordinate fields after the
`float(...)` parse (`none` when the field is missing or non-numeric, which
makes line 78/79 raise), plus the remaining columns. -/
structure Row where
  latField : Option ℚ
  lonField : Option ℚ
  cols : List (String × String)

/-- Lines 86-91: `props[k] = row.get(k, "")`, `None` collapsed to `""`. -/
def mkProps (keep : List String) (row : Row) : List (String × String) :=
  keep.map fun k => (k, (row.cols.lookup k).getD "")

/-- Line 95: the feature built once per accepted row. -/
def featureOf (cfg : Config) (row : Row) (lon lat : ℚ) : Feature :=
  ⟨lon, lat, mkProps cfg.keepCols row⟩

/-- Line 98: `range(args.min_zoom, args.max_zoom + 1)`. -/
def zoomList (cfg : Config) : List ℕ :=
  List.range' cfg.minZoom (cfg.maxZoom + 1 - cfg.minZoom)

/-- Lines 97-100: append the feature to the bucket of
`(z, lonlat_to_tile(lon, lat, z))` for every zoom in range. -/
noncomputable def absorb (cfg : Config) (lon lat : ℚ) (feat : Feature)
    (b : Buckets) : Buckets :=
  b ++ (zoomList cfg).map fun z => ((z, lonlat_to_tile lon lat z), feat)

/-- The keys of the bucket dict (pairwise distinct). -/
def keysOf (b : Buckets) : List TileKey := (b.map Prod.fst).dedup

/-- The loop body of `flush_buckets` (lines 45-62), one key at a time:
skip empty buckets; reading an existing file that fails to parse raises
(the offending key is returned and the loop stops); otherwise extend the
existing collection (or start a fresh one) and write it back. -/
def flushGo (b : Buckets) : List TileKey → TileStore → TileStore × Option TileKey
  | [], st => (st, none)
  | k :: ks, st =>
    if (bucketGet b k).isEmpty then
      flushGo b ks st
    else
      match st k with
      | .corrupt => (st, some k)
      | .good old => flushGo b ks (updateStore st k (.good (old ++ bucketGet b k)))
      | .absent => flushGo b ks (updateStore st k (.good (bucketGet b k)))

/-- `flush_buckets` (lines 44-63): drain every bucket into its tile file;
`buckets.clear()` (line 63) runs only when the loop finishes without
raising, otherwise the bucket map keeps all of its entries. -/
def flush_buckets (st : TileStore) (b : Buckets) :
    TileStore × Option TileKey × Buckets :=
  match flushGo b (keysOf b) st with
  | (st2, none) => (st2, none, [])
  | (st2, some k) => (st2, some k, b)

/-- The driver's mutable state in `main`. -/
structure DriverState where
  buckets : Buckets
  store : TileStore
  rows_seen : ℕ
  err : Option TileKey
  flushLog : List ℕ

/-- State at the top of `main`: empty buckets, `rows_seen = 0`. -/
def initState (st0 : TileStore) : DriverState :=
  ⟨[], st0, 0, none, []⟩

/-- One iteration of the row loop (lines 75-104): count the row, skip it
if a coordinate is missing/non-numeric (lines 77-81) or out of range
(lines 82-83), otherwise build the feature, absorb it into every zoom
bucket, and flush when `rows_seen % batch == 0`.  A raised flush error
(`err`) stops all further processing. -/
noncomputable def step (cfg : Config) (s : DriverState) (row : Row) :
    DriverState :=
  if s.err.isSome then s else
  let n := s.rows_seen + 1
  match row.latField, row.lonField with
  | some lat, some lon =>
    if (-90 ≤ lat ∧ lat ≤ 90) ∧ (-180 ≤ lon ∧ lon ≤ 180) then
      let b := absorb cfg lon lat (featureOf cfg row lon lat) s.buckets
      if n % cfg.batch = 0 then
        let r := flush_buckets s.store b
        { buckets := r.2.2, store := r.1, rows_seen := n, err := r.2.1,
          flushLog := s.flushLog ++ [n] }
      else
        { s with buckets := b, rows_seen := n }
    else
      { s with rows_seen := n }
  | _, _ => { s with rows_seen := n }

/-- The row loop (lines 75-104). -/
noncomputable def processRows (cfg : Config) (st0 : TileStore)
    (rows : List Row) : DriverState :=
  rows.foldl (step cfg) (initState st0)

/-- `main`: the row loop followed by the final flush (line 107); a flush
error that escaped the loop kills the run before the final flush. -/
noncomputable def mainRun (cfg : Config) (st0 : TileStore)
    (rows : List Row) : DriverState :=
  let s := processRows cfg st0 rows
  if s.err.isSome then s else
  let r := flush_buckets s.store s.buckets
  { s with buckets := r.2.2, store := r.1, err := r.2.1 }

/-- The single figure printed by line 108 (`"Tiled {rows_seen:,} rows"`). -/
def reportedTiled (s : DriverState) : ℕ := s.rows_seen

/-- Whether the driver accepts a row (coordinates parse and are in
range); rows with `acceptRow = false` hit a `continue`. -/
def acceptRow (row : Row) : Bool :=
  match row.latField, row.lonField with
  | some lat, some lon =>
    decide ((-90 ≤ lat ∧ lat ≤ 90) ∧ (-180 ≤ lon ∧ lon ≤ 180))
  | _, _ => false

/-- The bucket insertions contributed by one row (empty when skipped). -/
noncomputable def rowInserts (cfg : Config) (row : Row) : Buckets :=
  match row.latField, row.lonField with
  | some lat, some lon =>
    if (-90 ≤ lat ∧ lat ≤ 90) ∧ (-180 ≤ lon ∧ lon ≤ 180) then
      (zoomList cfg).map fun z =>
        ((z, lonlat_to_tile lon lat z), featureOf cfg row lon lat)
    else []
  | _, _ => []

/-- All bucket insertions of a run, in stream order. -/
noncomputable def insertionsOf (cfg : Config) (rows : List Row) : Buckets :=
  (rows.map (rowInserts cfg)).flatten

/-- The tile directory holding exactly the given insertions. -/
def storeOf (ins : Buckets) : TileStore := fun k =>
  if (bucketGet ins k).isEmpty then FileState.absent
  else FileState.good (bucketGet ins k)

/-- The `rows_seen` values at which the driver performs a periodic flush:
an accepted row whose (1-based) position is a multiple of `batch`. -/
def triggers (cfg : Config) : ℕ → List Row → List ℕ
  | _, [] => []
  | n, r :: rs =>
    (if acceptRow r && ((n + 1) % cfg.batch == 0) then [n + 1] else [])
      ++ triggers cfg (n + 1) rs

/- ### Concrete inputs used by witnesses -/

/-- A concrete feature. -/
def f0 : Feature := ⟨0, 0, []⟩

/-- Another concrete feature. -/
def f1 : Feature := ⟨1, 1, []⟩

/-- A concrete tile key. -/
def k00 : TileKey := (0, 0, 0)

/-- A directory whose every file fails to parse. -/
def stAllCorrupt : TileStore := fun _ => FileState.corrupt

/-- Invariant of the row loop: no error so far, no corrupt file, row
count and flush log as expected, and per key the data on disk plus the
data still buffered equals the initial file content plus all insertions
so far. -/
def LoopInv (_cfg : Config) (st0 : TileStore) (acc : Buckets) (n : ℕ)
    (log : List ℕ) (s : DriverState) : Prop :=
  s.err = none ∧ CorruptFree s.store ∧ s.rows_seen = n ∧ s.flushLog = log ∧
  ∀ k, content s.store k ++ bucketGet s.buckets k =
    content st0 k ++ bucketGet acc k

/- ### Concrete rows for the end-to-end scenario -/

/-- Row `(lon=8.5, lat=47.0)`. -/
def row1 : Row := ⟨some 47.0, some 8.5, []⟩

/-- Row `(lon=8.51, lat=47.01)`. -/
def row2 : Row := ⟨some 47.01, some 8.51, []⟩

/-- Row `(lon=200, lat=10)`: longitude out of range, so it is skipped. -/
def row3 : Row := ⟨some 10, some 200, []⟩

/-- The spec's 3-row input, one row invalid. -/
def scenario3 : List Row := [row1, row2, row3]

/-- Configuration `minZoom = maxZoom = 6`, default batch. -/
def cfgZ6 : Config := ⟨6, 6, 200000, []⟩

/-- Configuration with `batch = 2`. -/
def cfgB2 : Config := ⟨5, 7, 2, []⟩

/-- Input `[valid, invalid, valid]`: the accepted count reaches 2 (a
multiple of `batch = 2`) at the third row, but `rows_seen` is 3 there. -/
def rowsB2 : List Row := [row1, row3, row2]

/- ### Bucket-map lemmas -/

lemma bucketGet_nil (k : TileKey) : bucketGet [] k = [] := rfl

lemma bucketGet_append (a c : Buckets) (k : TileKey) :
    bucketGet (a ++ c) k = bucketGet a k ++ bucketGet c k := by
  simp [bucketGet, List.filter_append]

lemma bucketGet_cons (k0 : TileKey) (f : Feature) (rest : Buckets)
    (k : TileKey) :
    bucketGet ((k0, f) :: rest) k =
      (if k0 = k then [f] else []) ++ bucketGet rest k := by
  by_cases h : k0 = k <;> simp [bucketGet, List.filter_cons, h]

lemma bucketGet_eq_nil_iff (b : Buckets) (k : TileKey) :
    bucketGet b k = [] ↔ k ∉ b.map Prod.fst := by
  simp only [bucketGet, List.map_eq_nil_iff, List.filter_eq_nil_iff,
    decide_eq_true_eq, List.mem_map]
  push_neg
  constructor
  · rintro h x hx rfl
    exact h x hx rfl
  · rintro h x hx rfl
    exact h x hx rfl

lemma mem_keysOf (b : Buckets) (k : TileKey) :
    k ∈ keysOf b ↔ k ∈ b.map Prod.fst := List.mem_dedup

lemma keysOf_nodup (b : Buckets) : (keysOf b).Nodup := List.nodup_dedup _

/- ### Tile-store lemmas -/

lemma updateStore_self (st : TileStore) (k : TileKey) (v : FileState) :
    updateStore st k v k = v := by simp [updateStore]

lemma updateStore_other (st : TileStore) (k : TileKey) (v : FileState)
    (k' : TileKey) (h : k' ≠ k) : updateStore st k v k' = st k' := by
  simp [updateStore, h]

lemma content_updateStore_other (st : TileStore) (k0 : TileKey)
    (v : FileState) (k : TileKey) (h : k ≠ k0) :
    content (updateStore st k0 v) k = content st k := by
  unfold content
  rw [updateStore_other st k0 v k h]

/- ### `flush_buckets` characterisation -/

lemma flushGo_spec (b : Buckets) : ∀ (ks : List TileKey) (st : TileStore),
    CorruptFree st → ks.Nodup →
    (flushGo b ks st).2 = none ∧
    (∀ k, (flushGo b ks st).1 k =
      if k ∈ ks then
        (if (bucketGet b k).isEmpty then st k
         else FileState.good (content st k ++ bucketGet b k))
      else st k) := by
  intro ks
  induction ks with
  | nil =>
    intro st hcf hnd
    exact ⟨rfl, fun k => by simp [flushGo]⟩
  | cons k0 ks ih =>
    intro st hcf hnd
    have hk0 : k0 ∉ ks := (List.nodup_cons.mp hnd).1
    have hnd2 : ks.Nodup := (List.nodup_cons.mp hnd).2
    by_cases hbe : (bucketGet b k0).isEmpty
    · have heq : flushGo b (k0 :: ks) st = flushGo b ks st := by
        simp [flushGo, hbe]
      rw [heq]
      obtain ⟨h1, h2⟩ := ih st hcf hnd2
      refine ⟨h1, fun k => ?_⟩
      rw [h2 k]
      by_cases hk : k ∈ ks
      · rw [if_pos hk, if_pos (List.mem_cons_of_mem _ hk)]
      · rw [if_neg hk]
        by_cases hkk : k = k0
        · subst hkk
          rw [if_pos (List.mem_cons_self _ _), if_pos hbe]
        · rw [if_neg (by simp [List.mem_cons, hkk, hk])]
    · have hwrite : flushGo b (k0 :: ks) st =
          flushGo b ks
            (updateStore st k0
              (FileState.good (content st k0 ++ bucketGet b k0))) := by
        cases hst : st k0 with
        | corrupt => exact absurd hst (hcf k0)
        | absent => simp [flushGo, hbe, hst, content, featsOf]
        | good old => simp [flushGo, hbe, hst, content, featsOf]
      rw [hwrite]
      have hcf1 : CorruptFree
          (updateStore st k0
            (FileState.good (content st k0 ++ bucketGet b k0))) := by
        intro k
        by_cases hk : k = k0
        · subst hk
          rw [updateStore_self]
          intro h
          cases h
        · rw [updateStore_other _ _ _ _ hk]
          exact hcf k
      obtain ⟨h1, h2⟩ := ih _ hcf1 hnd2
      refine ⟨h1, fun k => ?_⟩
      rw [h2 k]
      by_cases hk : k ∈ ks
      · have hkk : k ≠ k0 := fun h => hk0 (h ▸ hk)
        rw [if_pos hk, if_pos (List.mem_cons_of_mem _ hk),
          updateStore_other _ _ _ _ hkk, content_updateStore_other _ _ _ _ hkk]
      · rw [if_neg hk]
        by_cases hkk : k = k0
        · subst hkk
          rw [if_pos (List.mem_cons_self _ _), if_neg hbe, updateStore_self]
        · rw [if_neg (by simp [List.mem_cons, hkk, hk]),
            updateStore_other _ _ _ _ hkk]

lemma flush_buckets_ok (st : TileStore) (b : Buckets) (hcf : CorruptFree st) :
    (flush_buckets st b).2.1 = none ∧
    (flush_buckets st b).2.2 = [] ∧
    (∀ k, (flush_buckets st b).1 k =
      if (bucketGet b k).isEmpty then st k
      else FileState.good (content st k ++ bucketGet b k)) := by
  obtain ⟨h1, h2⟩ := flushGo_spec b (keysOf b) st hcf (keysOf_nodup b)
  unfold flush_buckets
  cases hres : flushGo b (keysOf b) st with
  | mk st2 e =>
    rw [hres] at h1 h2
    simp only at h1
    subst h1
    refine ⟨rfl, rfl, fun k => ?_⟩
    show st2 k = _
    have h := h2 k
    simp only at h
    by_cases hk : k ∈ keysOf b
    · rw [if_pos hk] at h
      exact h
    · rw [if_neg hk] at h
      have hnil : bucketGet b k = [] :=
        (bucketGet_eq_nil_iff b k).mpr (fun hm => hk ((mem_keysOf b k).mpr hm))
      rw [h, if_pos (by simp [hnil])]

lemma content_flush (st : TileStore) (b : Buckets) (hcf : CorruptFree st)
    (k : TileKey) :
    content (flush_buckets st b).1 k = content st k ++ bucketGet b k := by
  have h := (flush_buckets_ok st b hcf).2.2 k
  unfold content
  rw [h]
  by_cases hbe : (bucketGet b k).isEmpty
  · rw [if_pos hbe, List.isEmpty_iff.mp hbe, List.append_nil]
  · rw [if_neg hbe]
    rfl

lemma flush_corruptFree (st : TileStore) (b : Buckets)
    (hcf : CorruptFree st) : CorruptFree (flush_buckets st b).1 := by
  intro k
  rw [(flush_buckets_ok st b hcf).2.2 k]
  by_cases hbe : (bucketGet b k).isEmpty
  · rw [if_pos hbe]
    exact hcf k
  · rw [if_neg hbe]
    intro h
    cases h

lemma flush_clean (st : TileStore) (b : Buckets) (hcf : CorruptFree st)
    (hcl : CleanStore st) : CleanStore (flush_buckets st b).1 := by
  intro k
  rw [(flush_buckets_ok st b hcf).2.2 k]
  by_cases hbe : (bucketGet b k).isEmpty
  · rw [if_pos hbe]
    exact hcl k
  · rw [if_neg hbe]
    refine Or.inr ⟨content st k ++ bucketGet b k, rfl, fun h => ?_⟩
    have := (List.append_eq_nil.mp h).2
    rw [this] at hbe
    simp at hbe

/- ### Error-path lemmas for `flush_buckets` -/

lemma flushGo_corrupt_iff (b : Buckets) :
    ∀ (ks : List TileKey) (st : TileStore) (k : TileKey),
    (flushGo b ks st).1 k = FileState.corrupt ↔ st k = FileState.corrupt := by
  intro ks
  induction ks with
  | nil =>
    intro st k
    simp [flushGo]
  | cons k0 ks ih =>
    intro st k
    by_cases hbe : (bucketGet b k0).isEmpty
    · rw [show flushGo b (k0 :: ks) st = flushGo b ks st from by
        simp [flushGo, hbe]]
      exact ih st k
    · cases hst : st k0 with
      | corrupt =>
        rw [show flushGo b (k0 :: ks) st = (st, some k0) from by
          simp [flushGo, hbe, hst]]
      | absent =>
        rw [show flushGo b (k0 :: ks) st =
            flushGo b ks (updateStore st k0 (.good (bucketGet b k0))) from by
          simp [flushGo, hbe, hst]]
        rw [ih]
        by_cases hk : k = k0
        · subst hk
          rw [updateStore_self, hst]
          simp
        · rw [updateStore_other _ _ _ _ hk]
      | good old =>
        rw [show flushGo b (k0 :: ks) st =
            flushGo b ks
              (updateStore st k0 (.good (old ++ bucketGet b k0))) from by
          simp [flushGo, hbe, hst]]
        rw [ih]
        by_cases hk : k = k0
        · subst hk
          rw [updateStore_self, hst]
          simp
        · rw [updateStore_other _ _ _ _ hk]

lemma flushGo_extends (b : Buckets) :
    ∀ (ks : List TileKey) (st : TileStore) (k : TileKey),
    ∃ t, content (flushGo b ks st).1 k = content st k ++ t := by
  intro ks
  induction ks with
  | nil =>
    intro st k
    exact ⟨[], (List.append_nil _).symm⟩
  | cons k0 ks ih =>
    intro st k
    by_cases hbe : (bucketGet b k0).isEmpty
    · rw [show flushGo b (k0 :: ks) st = flushGo b ks st from by
        simp [flushGo, hbe]]
      exact ih st k
    · cases hst : st k0 with
      | corrupt =>
        rw [show flushGo b (k0 :: ks) st = (st, some k0) from by
          simp [flushGo, hbe, hst]]
        exact ⟨[], (List.append_nil _).symm⟩
      | absent =>
        rw [show flushGo b (k0 :: ks) st =
            flushGo b ks (updateStore st k0 (.good (bucketGet b k0))) from by
          simp [flushGo, hbe, hst]]
        obtain ⟨t, ht⟩ := ih (updateStore st k0 (.good (bucketGet b k0))) k
        by_cases hk : k = k0
        · subst hk
          refine ⟨bucketGet b k ++ t, ?_⟩
          rw [ht]
          unfold content
          rw [updateStore_self, hst]
          simp [featsOf]
        · refine ⟨t, ?_⟩
          rw [ht, content_updateStore_other _ _ _ _ hk]
      | good old =>
        rw [show flushGo b (k0 :: ks) st =
            flushGo b ks
              (updateStore st k0 (.good (old ++ bucketGet b k0))) from by
          simp [flushGo, hbe, hst]]
        obtain ⟨t, ht⟩ :=
          ih (updateStore st k0 (.good (old ++ bucketGet b k0))) k
        by_cases hk : k = k0
        · subst hk
          refine ⟨bucketGet b k ++ t, ?_⟩
          rw [ht]
          unfold content
          rw [updateStore_self, hst]
          simp [featsOf]
        · refine ⟨t, ?_⟩
          rw [ht, content_updateStore_other _ _ _ _ hk]

lemma flushGo_none_no_corrupt (b : Buckets) :
    ∀ (ks : List TileKey) (st : TileStore),
    (flushGo b ks st).2 = none →
    ∀ k ∈ ks, ¬(bucketGet b k).isEmpty → st k ≠ FileState.corrupt := by
  intro ks
  induction ks with
  | nil =>
    intro st _ k hk
    cases hk
  | cons k0 ks ih =>
    intro st hnone k hk hbk
    by_cases hbe : (bucketGet b k0).isEmpty
    · rw [show flushGo b (k0 :: ks) st = flushGo b ks st from by
        simp [flushGo, hbe]] at hnone
      rcases List.mem_cons.mp hk with rfl | hk2
      · exact absurd hbe hbk
      · exact ih st hnone k hk2 hbk
    · cases hst : st k0 with
      | corrupt =>
        rw [show flushGo b (k0 :: ks) st = (st, some k0) from by
          simp [flushGo, hbe, hst]] at hnone
        simp at hnone
      | absent =>
        rw [show flushGo b (k0 :: ks) st =
            flushGo b ks (updateStore st k0 (.good (bucketGet b k0))) from by
          simp [flushGo, hbe, hst]] at hnone
        by_cases hkk : k = k0
        · subst hkk
          rw [hst]
          intro h
          cases h
        · intro hc
          exact ih _ hnone k ((List.mem_cons.mp hk).resolve_left hkk) hbk
            (by rw [updateStore_other _ _ _ _ hkk]; exact hc)
      | good old =>
        rw [show flushGo b (k0 :: ks) st =
            flushGo b ks
              (updateStore st k0 (.good (old ++ bucketGet b k0))) from by
          simp [flushGo, hbe, hst]] at hnone
        by_cases hkk : k = k0
        · subst hkk
          rw [hst]
          intro h
          cases h
        · intro hc
          exact ih _ hnone k ((List.mem_cons.mp hk).resolve_left hkk) hbk
            (by rw [updateStore_other _ _ _ _ hkk]; exact hc)

/- ### Claims about the flush behaviour -/

/-- Claim C5: if, during a flush, an existing tile file at a destination
path cannot be decompressed or parsed, the flush errors out (and with it
the run), the corrupt tile is never replaced by a fresh collection, the
bucket map is not cleared, and no persisted features are dropped from any
tile (every file's collection is only ever extended). -/
theorem claim_C5 (st : TileStore) (b : Buckets) (k : TileKey)
    (hc : st k = FileState.corrupt) (hb : bucketGet b k ≠ []) :
    (flush_buckets st b).2.1.isSome = true ∧
    (flush_buckets st b).1 k = FileState.corrupt ∧
    (flush_buckets st b).2.2 = b ∧
    (∀ k', ∃ t, content (flush_buckets st b).1 k' = content st k' ++ t) := by
  have hkmem : k ∈ keysOf b := (mem_keysOf b k).mpr (by
    by_contra hm
    exact hb ((bucketGet_eq_nil_iff b k).mpr hm))
  have hbk : ¬(bucketGet b k).isEmpty := by
    simp [List.isEmpty_iff, hb]
  have hne : (flushGo b (keysOf b) st).2 ≠ none := fun hnone =>
    flushGo_none_no_corrupt b (keysOf b) st hnone k hkmem hbk hc
  have hcor := (flushGo_corrupt_iff b (keysOf b) st k).mpr hc
  have hext := flushGo_extends b (keysOf b) st
  unfold flush_buckets
  cases hres : flushGo b (keysOf b) st with
  | mk st2 e =>
    rw [hres] at hne hcor
    cases e with
    | none => exact absurd rfl hne
    | some k1 =>
      refine ⟨rfl, hcor, rfl, fun k' => ?_⟩
      have h := hext k'
      rw [hres] at h
      exact h

/-- Witness for C5 at a concrete corrupt store and nonempty bucket. -/
theorem claim_C5_witness :
    (flush_buckets stAllCorrupt [(k00, f0)]).2.1.isSome = true ∧
    (flush_buckets stAllCorrupt [(k00, f0)]).2.2 = [(k00, f0)] :=
  ⟨(claim_C5 stAllCorrupt [(k00, f0)] k00 rfl (by decide)).1,
   (claim_C5 stAllCorrupt [(k00, f0)] k00 rfl (by decide)).2.2.1⟩

/-- Claim C10: a flush that raises leaves the in-memory bucket map with
all of its entries; the bucket map is cleared exactly when every key was
written successfully (`buckets.clear()` on line 63 runs only after the
loop completes). -/
theorem claim_C10 (st : TileStore) (b : Buckets) :
    ((flush_buckets st b).2.1.isSome = true → (flush_buckets st b).2.2 = b) ∧
    ((flush_buckets st b).2.1 = none → (flush_buckets st b).2.2 = []) := by
  cases hres : flushGo b (keysOf b) st with
  | mk st2 e =>
    cases e with
    | none =>
      have hfb : flush_buckets st b = (st2, none, []) := by
        unfold flush_buckets
        rw [hres]
      rw [hfb]
      exact ⟨fun h => Bool.noConfusion h, fun _ => rfl⟩
    | some k1 =>
      have hfb : flush_buckets st b = (st2, some k1, b) := by
        unfold flush_buckets
        rw [hres]
      rw [hfb]
      exact ⟨fun _ => rfl, fun h => Option.noConfusion h⟩

/-- Witness for C10: a failing flush at a concrete input keeps the bucket. -/
theorem claim_C10_witness :
    (flush_buckets stAllCorrupt [(k00, f1)]).2.2 = [(k00, f1)] :=
  (claim_C10 stAllCorrupt [(k00, f1)]).1 (by decide)

/- ### Claim about latitude clamping -/

/-- Claim C9: `lonlat_to_tile` clamps latitude to
`[-85.05112878, 85.05112878]` before projecting: any latitude above the
band maps exactly as `85.05112878` does, any latitude below maps exactly
as `-85.05112878` does; out-of-band latitudes are clamped, not rejected. -/
theorem claim_C9 (lon lat : ℝ) (z : ℕ) :
    (85.05112878 ≤ lat →
      lonlat_to_tile lon lat z = lonlat_to_tile lon 85.05112878 z) ∧
    (lat ≤ -85.05112878 →
      lonlat_to_tile lon lat z = lonlat_to_tile lon (-85.05112878) z) := by
  have hcc : (-85.05112878 : ℝ) ≤ 85.05112878 := by norm_num
  constructor
  · intro h
    have hcl : clampLat lat = clampLat 85.05112878 := by
      unfold clampLat
      rw [min_eq_right h, min_self]
    unfold lonlat_to_tile tileY mercS
    rw [hcl]
  · intro h
    have hcl : clampLat lat = clampLat (-85.05112878) := by
      unfold clampLat
      rw [min_eq_left (le_trans h hcc), min_eq_left hcc, max_eq_right h,
        max_self]
    unfold lonlat_to_tile tileY mercS
    rw [hcl]

/-- Witness for C9 at `lat = 89` and `lat = -89` (zoom 6). -/
theorem claim_C9_witness :
    lonlat_to_tile 0 89 6 = lonlat_to_tile 0 85.05112878 6 ∧
    lonlat_to_tile 0 (-89) 6 = lonlat_to_tile 0 (-85.05112878) 6 :=
  ⟨(claim_C9 0 89 6).1 (by norm_num), (claim_C9 0 (-89) 6).2 (by norm_num)⟩

/- ### Zoom-range lemmas -/

lemma zoomList_length (cfg : Config) :
    (zoomList cfg).length = cfg.maxZoom + 1 - cfg.minZoom := by
  simp [zoomList]

lemma zoomList_nodup (cfg : Config) : (zoomList cfg).Nodup :=
  List.nodup_range' _ _

lemma mem_zoomList (cfg : Config) (z : ℕ) :
    z ∈ zoomList cfg ↔ cfg.minZoom ≤ z ∧ z ≤ cfg.maxZoom := by
  unfold zoomList
  rw [List.mem_range']
  constructor
  · rintro ⟨i, hi, rfl⟩
    omega
  · rintro ⟨h1, h2⟩
    exact ⟨z - cfg.minZoom, by omega, by omega⟩

/- ### Per-zoom bucket lookups -/

lemma bucketGet_zoomMap_nil (l : List ℕ) (tf : ℕ → ℤ × ℤ) (feat : Feature)
    (z : ℕ) (hz : z ∉ l) :
    bucketGet (l.map fun w => ((w, tf w), feat)) (z, tf z) = [] := by
  induction l with
  | nil => rfl
  | cons a l ih =>
    have haz : a ≠ z := by
      rintro rfl
      exact hz (List.mem_cons_self _ _)
    rw [List.map_cons, bucketGet_cons,
      if_neg (fun h => haz (congrArg Prod.fst h)), List.nil_append]
    exact ih fun h => hz (List.mem_cons_of_mem _ h)

lemma bucketGet_zoomMap (l : List ℕ) (tf : ℕ → ℤ × ℤ) (feat : Feature)
    (z : ℕ) (hnd : l.Nodup) (hz : z ∈ l) :
    bucketGet (l.map fun w => ((w, tf w), feat)) (z, tf z) = [feat] := by
  induction l with
  | nil => cases hz
  | cons a l ih =>
    rw [List.map_cons, bucketGet_cons]
    by_cases haz : a = z
    · subst haz
      rw [if_pos rfl,
        bucketGet_zoomMap_nil l tf feat a (List.nodup_cons.mp hnd).1,
        List.append_nil]
    · rw [if_neg (fun h => haz (congrArg Prod.fst h)), List.nil_append]
      exact ih (List.nodup_cons.mp hnd).2
        ((List.mem_cons.mp hz).resolve_left fun h => haz h.symm)

/- ### Claim about the bucketer (absorb) -/

/-- Claim C2: absorbing one accepted record with `minZoom ≤ maxZoom`
produces exactly `maxZoom - minZoom + 1` bucket insertions, one per zoom
level in range, each appended to the bucket of the tile key that
`lonlat_to_tile` computes for that zoom and the record's coordinates. -/
theorem claim_C2 (cfg : Config) (lon lat : ℚ) (feat : Feature) (b : Buckets)
    (h : cfg.minZoom ≤ cfg.maxZoom) :
    (absorb cfg lon lat feat b).length =
      b.length + (cfg.maxZoom - cfg.minZoom + 1) ∧
    (∀ z, cfg.minZoom ≤ z → z ≤ cfg.maxZoom →
      bucketGet (absorb cfg lon lat feat b) (z, lonlat_to_tile lon lat z) =
        bucketGet b (z, lonlat_to_tile lon lat z) ++ [feat]) := by
  constructor
  · rw [absorb, List.length_append, List.length_map, zoomList_length]
    omega
  · intro z hz1 hz2
    rw [absorb, bucketGet_append,
      bucketGet_zoomMap (zoomList cfg) (fun w => lonlat_to_tile lon lat w)
        feat z (zoomList_nodup cfg) ((mem_zoomList cfg z).mpr ⟨hz1, hz2⟩)]

/-- Witness for C2 with `minZoom = 5, maxZoom = 7`: three insertions. -/
theorem claim_C2_witness :
    (absorb ⟨5, 7, 1, []⟩ 0 0 f0 []).length = 0 + (7 - 5 + 1) :=
  (claim_C2 ⟨5, 7, 1, []⟩ 0 0 f0 [] (by decide)).1

/- ### Step characterisation -/

lemma accept_fields (row : Row) (h : acceptRow row = true) :
    ∃ lat lon, row.latField = some lat ∧ row.lonField = some lon ∧
      ((-90 ≤ lat ∧ lat ≤ 90) ∧ (-180 ≤ lon ∧ lon ≤ 180)) := by
  unfold acceptRow at h
  cases hlat : row.latField with
  | none =>
    rw [hlat] at h
    simp at h
  | some lat =>
    cases hlon : row.lonField with
    | none =>
      rw [hlat, hlon] at h
      simp at h
    | some lon =>
      rw [hlat, hlon] at h
      exact ⟨lat, lon, rfl, rfl, of_decide_eq_true h⟩

lemma step_err_some (cfg : Config) (s : DriverState) (row : Row)
    (h : s.err.isSome) : step cfg s row = s := by
  unfold step
  rw [if_pos h]

lemma step_skip (cfg : Config) (s : DriverState) (row : Row)
    (he : s.err = none) (h : acceptRow row = false) :
    step cfg s row = { s with rows_seen := s.rows_seen + 1 } := by
  unfold step
  rw [if_neg (by simp [he])]
  unfold acceptRow at h
  cases hlat : row.latField with
  | none => simp [hlat]
  | some lat =>
    cases hlon : row.lonField with
    | none => simp [hlat, hlon]
    | some lon =>
      rw [hlat, hlon] at h
      have hnP := of_decide_eq_false h
      simp [hlat, hlon, hnP]

lemma step_accept_noflush (cfg : Config) (s : DriverState) (row : Row)
    (lat lon : ℚ) (he : s.err = none) (hlat : row.latField = some lat)
    (hlon : row.lonField = some lon)
    (hP : (-90 ≤ lat ∧ lat ≤ 90) ∧ (-180 ≤ lon ∧ lon ≤ 180))
    (hmod : ¬(s.rows_seen + 1) % cfg.batch = 0) :
    step cfg s row = { s with
      buckets := absorb cfg lon lat (featureOf cfg row lon lat) s.buckets,
      rows_seen := s.rows_seen + 1 } := by
  unfold step
  rw [if_neg (by simp [he])]
  simp [hlat, hlon, hP, hmod]

lemma step_accept_flush (cfg : Config) (s : DriverState) (row : Row)
    (lat lon : ℚ) (he : s.err = none) (hlat : row.latField = some lat)
    (hlon : row.lonField = some lon)
    (hP : (-90 ≤ lat ∧ lat ≤ 90) ∧ (-180 ≤ lon ∧ lon ≤ 180))
    (hmod : (s.rows_seen + 1) % cfg.batch = 0) :
    step cfg s row =
      { buckets := (flush_buckets s.store
          (absorb cfg lon lat (featureOf cfg row lon lat) s.buckets)).2.2,
        store := (flush_buckets s.store
          (absorb cfg lon lat (featureOf cfg row lon lat) s.buckets)).1,
        rows_seen := s.rows_seen + 1,
        err := (flush_buckets s.store
          (absorb cfg lon lat (featureOf cfg row lon lat) s.buckets)).2.1,
        flushLog := s.flushLog ++ [s.rows_seen + 1] } := by
  unfold step
  rw [if_neg (by simp [he])]
  simp [hlat, hlon, hP, hmod]

lemma rowInserts_not_accept (cfg : Config) (row : Row)
    (h : acceptRow row = false) : rowInserts cfg row = [] := by
  unfold acceptRow at h
  unfold rowInserts
  cases hlat : row.latField with
  | none => simp [hlat]
  | some lat =>
    cases hlon : row.lonField with
    | none => simp [hlat, hlon]
    | some lon =>
      rw [hlat, hlon] at h
      simp [hlat, hlon, of_decide_eq_false h]

lemma rowInserts_accept (cfg : Config) (row : Row) (lat lon : ℚ)
    (hlat : row.latField = some lat) (hlon : row.lonField = some lon)
    (hP : (-90 ≤ lat ∧ lat ≤ 90) ∧ (-180 ≤ lon ∧ lon ≤ 180)) :
    rowInserts cfg row = (zoomList cfg).map fun z =>
      ((z, lonlat_to_tile lon lat z), featureOf cfg row lon lat) := by
  unfold rowInserts
  simp [hlat, hlon, hP]

lemma insertionsOf_cons (cfg : Config) (r : Row) (rs : List Row) :
    insertionsOf cfg (r :: rs) = rowInserts cfg r ++ insertionsOf cfg rs := by
  simp [insertionsOf]

/- ### The loop invariant -/

lemma step_LoopInv (cfg : Config) (st0 : TileStore) (acc : Buckets) (n : ℕ)
    (log : List ℕ) (s : DriverState) (row : Row)
    (h : LoopInv cfg st0 acc n log s) :
    LoopInv cfg st0 (acc ++ rowInserts cfg row) (n + 1)
      (log ++ (if acceptRow row && ((n + 1) % cfg.batch == 0)
        then [n + 1] else []))
      (step cfg s row) := by
  obtain ⟨he, hcf, hn, hl, hk⟩ := h
  subst hn
  subst hl
  cases hacc : acceptRow row with
  | false =>
    rw [step_skip cfg s row he hacc, rowInserts_not_accept cfg row hacc]
    exact ⟨he, hcf, rfl, by simp [hacc], fun k => by
      simpa [List.append_nil] using hk k⟩
  | true =>
    obtain ⟨lat, lon, hlat, hlon, hP⟩ := accept_fields row hacc
    rw [rowInserts_accept cfg row lat lon hlat hlon hP]
    by_cases hmod : (s.rows_seen + 1) % cfg.batch = 0
    · rw [step_accept_flush cfg s row lat lon he hlat hlon hP hmod]
      have hfo := flush_buckets_ok s.store
        (absorb cfg lon lat (featureOf cfg row lon lat) s.buckets) hcf
      refine ⟨hfo.1, flush_corruptFree _ _ hcf, rfl,
        by simp [hacc, hmod], fun k => ?_⟩
      rw [hfo.2.1, bucketGet_nil, List.append_nil,
        content_flush _ _ hcf k, absorb, bucketGet_append,
        ← List.append_assoc, hk k, bucketGet_append, List.append_assoc]
    · rw [step_accept_noflush cfg s row lat lon he hlat hlon hP hmod]
      refine ⟨he, hcf, rfl, by simp [hacc, hmod], fun k => ?_⟩
      show content s.store k ++
        bucketGet (absorb cfg lon lat (featureOf cfg row lon lat) s.buckets) k
          = _
      rw [absorb, bucketGet_append, ← List.append_assoc, hk k,
        bucketGet_append, List.append_assoc]

lemma foldl_LoopInv (cfg : Config) (st0 : TileStore) :
    ∀ (rows : List Row) (s : DriverState) (acc : Buckets) (n : ℕ)
      (log : List ℕ), LoopInv cfg st0 acc n log s →
    LoopInv cfg st0 (acc ++ insertionsOf cfg rows) (n + rows.length)
      (log ++ triggers cfg n rows) (rows.foldl (step cfg) s) := by
  intro rows
  induction rows with
  | nil =>
    intro s acc n log h
    simpa [insertionsOf, triggers] using h
  | cons r rs ih =>
    intro s acc n log h
    have h2 := ih (step cfg s r) (acc ++ rowInserts cfg r) (n + 1)
      (log ++ (if acceptRow r && ((n + 1) % cfg.batch == 0)
        then [n + 1] else []))
      (step_LoopInv cfg st0 acc n log s r h)
    rw [List.foldl_cons]
    rw [List.append_assoc, List.append_assoc] at h2
    have e1 : rowInserts cfg r ++ insertionsOf cfg rs =
        insertionsOf cfg (r :: rs) := (insertionsOf_cons cfg r rs).symm
    have e2 : n + 1 + rs.length = n + (r :: rs).length := by
      simp
      omega
    have e3 : (if acceptRow r && ((n + 1) % cfg.batch == 0)
        then [n + 1] else []) ++ triggers cfg (n + 1) rs =
        triggers cfg n (r :: rs) := rfl
    rw [e1, e2, e3] at h2
    exact h2

lemma processRows_LoopInv (cfg : Config) (st0 : TileStore) (rows : List Row)
    (hcf0 : CorruptFree st0) :
    LoopInv cfg st0 (insertionsOf cfg rows) rows.length (triggers cfg 0 rows)
      (processRows cfg st0 rows) := by
  have base : LoopInv cfg st0 [] 0 [] (initState st0) :=
    ⟨rfl, hcf0, rfl, rfl, fun k => rfl⟩
  have h := foldl_LoopInv cfg st0 rows (initState st0) [] 0 [] base
  simpa [processRows] using h

/- ### End-of-run characterisation -/

lemma mainRun_ok (cfg : Config) (st0 : TileStore) (rows : List Row)
    (hcf0 : CorruptFree st0) :
    (mainRun cfg st0 rows).err = none ∧
    (mainRun cfg st0 rows).buckets = [] ∧
    (mainRun cfg st0 rows).rows_seen = rows.length ∧
    (mainRun cfg st0 rows).flushLog = triggers cfg 0 rows ∧
    CorruptFree (mainRun cfg st0 rows).store ∧
    ∀ k, content (mainRun cfg st0 rows).store k =
      content st0 k ++ bucketGet (insertionsOf cfg rows) k := by
  obtain ⟨he, hcf, hn, hl, hk⟩ := processRows_LoopInv cfg st0 rows hcf0
  have hms : mainRun cfg st0 rows =
      { processRows cfg st0 rows with
        buckets := (flush_buckets (processRows cfg st0 rows).store
          (processRows cfg st0 rows).buckets).2.2,
        store := (flush_buckets (processRows cfg st0 rows).store
          (processRows cfg st0 rows).buckets).1,
        err := (flush_buckets (processRows cfg st0 rows).store
          (processRows cfg st0 rows).buckets).2.1 } := by
    unfold mainRun
    rw [if_neg (by simp [he])]
  have hfo := flush_buckets_ok (processRows cfg st0 rows).store
    (processRows cfg st0 rows).buckets hcf
  rw [hms]
  refine ⟨hfo.1, hfo.2.1, hn, hl, flush_corruptFree _ _ hcf, fun k => ?_⟩
  show content (flush_buckets _ _).1 k = _
  rw [content_flush _ _ hcf k, hk k]

/- ### Shape of the stores the pipeline produces -/

lemma step_store_cases (cfg : Config) (s : DriverState) (row : Row) :
    (step cfg s row).store = s.store ∨
    ∃ b, (step cfg s row).store = (flush_buckets s.store b).1 := by
  by_cases herr : s.err.isSome
  · rw [step_err_some cfg s row herr]
    exact Or.inl rfl
  · have he : s.err = none := by
      cases h : s.err
      · rfl
      · rw [h] at herr
        simp at herr
    cases hacc : acceptRow row with
    | false =>
      rw [step_skip cfg s row he hacc]
      exact Or.inl rfl
    | true =>
      obtain ⟨lat, lon, hlat, hlon, hP⟩ := accept_fields row hacc
      by_cases hmod : (s.rows_seen + 1) % cfg.batch = 0
      · rw [step_accept_flush cfg s row lat lon he hlat hlon hP hmod]
        exact Or.inr ⟨_, rfl⟩
      · rw [step_accept_noflush cfg s row lat lon he hlat hlon hP hmod]
        exact Or.inl rfl

lemma step_preserves_store (cfg : Config) (s : DriverState) (row : Row)
    (h : CorruptFree s.store ∧ CleanStore s.store) :
    CorruptFree (step cfg s row).store ∧ CleanStore (step cfg s row).store := by
  rcases step_store_cases cfg s row with h1 | ⟨b, h1⟩
  · rw [h1]
    exact h
  · rw [h1]
    exact ⟨flush_corruptFree _ _ h.1, flush_clean _ _ h.1 h.2⟩

lemma processRows_clean (cfg : Config) (st0 : TileStore) (rows : List Row)
    (hcf0 : CorruptFree st0) (hcl0 : CleanStore st0) :
    CorruptFree (processRows cfg st0 rows).store ∧
    CleanStore (processRows cfg st0 rows).store := by
  suffices h : ∀ (rows : List Row) (s : DriverState),
      CorruptFree s.store ∧ CleanStore s.store →
      CorruptFree (rows.foldl (step cfg) s).store ∧
      CleanStore (rows.foldl (step cfg) s).store by
    exact h rows (initState st0) ⟨hcf0, hcl0⟩
  intro rows
  induction rows with
  | nil => exact fun s h => h
  | cons r rs ih =>
    intro s h
    rw [List.foldl_cons]
    exact ih (step cfg s r) (step_preserves_store cfg s r h)

lemma emp_corruptFree : CorruptFree emp := fun _ h => FileState.noConfusion h

lemma emp_clean : CleanStore emp := fun _ => Or.inl rfl

lemma content_emp (k : TileKey) : content emp k = [] := rfl

lemma content_storeOf (ins : Buckets) (k : TileKey) :
    content (storeOf ins) k = bucketGet ins k := by
  unfold content storeOf
  by_cases hbe : (bucketGet ins k).isEmpty
  · rw [if_pos hbe, List.isEmpty_iff.mp hbe]
    rfl
  · rw [if_neg hbe]
    rfl

lemma storeOf_corruptFree (ins : Buckets) : CorruptFree (storeOf ins) := by
  intro k
  unfold storeOf
  by_cases hbe : (bucketGet ins k).isEmpty
  · rw [if_pos hbe]
    intro h
    cases h
  · rw [if_neg hbe]
    intro h
    cases h

/-- The final store of a run on a fresh output directory holds exactly
the run's insertions, key by key. -/
lemma mainRun_emp_store (cfg : Config) (rows : List Row) :
    (mainRun cfg emp rows).store = storeOf (insertionsOf cfg rows) := by
  funext k
  obtain ⟨he, hcf, hn, hl, hk⟩ := processRows_LoopInv cfg emp rows emp_corruptFree
  obtain ⟨hcfS, hclS⟩ := processRows_clean cfg emp rows emp_corruptFree emp_clean
  have hms : (mainRun cfg emp rows).store =
      (flush_buckets (processRows cfg emp rows).store
        (processRows cfg emp rows).buckets).1 := by
    unfold mainRun
    rw [if_neg (by simp [he])]
  have hflush := (flush_buckets_ok (processRows cfg emp rows).store
    (processRows cfg emp rows).buckets hcf).2.2 k
  have hA : content (processRows cfg emp rows).store k ++
      bucketGet (processRows cfg emp rows).buckets k =
      bucketGet (insertionsOf cfg rows) k := by
    have h := hk k
    rwa [content_emp, List.nil_append] at h
  rw [hms, hflush]
  by_cases hbe : (bucketGet (processRows cfg emp rows).buckets k).isEmpty
  · rw [if_pos hbe]
    rw [List.isEmpty_iff.mp hbe, List.append_nil] at hA
    rcases hclS k with habs | ⟨l, hg, hlne⟩
    · have hinil : bucketGet (insertionsOf cfg rows) k = [] := by
        rw [← hA]
        unfold content
        rw [habs]
        rfl
      rw [habs, storeOf, if_pos (by simp [hinil])]
    · have hleq : l = bucketGet (insertionsOf cfg rows) k := by
        rw [← hA]
        unfold content
        rw [hg]
        rfl
      rw [hg, storeOf, if_neg (by simp [← hleq, hlne]), ← hleq]
  · rw [if_neg hbe, hA, storeOf]
    have hine : bucketGet (insertionsOf cfg rows) k ≠ [] := by
      rw [← hA]
      intro h
      have hbnil : bucketGet (processRows cfg emp rows).buckets k ≠ [] := by
        simpa [List.isEmpty_iff] using hbe
      exact hbnil (List.append_eq_nil.mp h).2
    rw [if_neg (by simp [hine])]

/- ### Insertions depend only on the accepted rows and the zoom range -/

lemma insertionsOf_filter (cfg : Config) (rows : List Row) :
    insertionsOf cfg (rows.filter acceptRow) = insertionsOf cfg rows := by
  induction rows with
  | nil => rfl
  | cons r rs ih =>
    cases hacc : acceptRow r with
    | false =>
      rw [List.filter_cons_of_neg (by simp [hacc]), insertionsOf_cons,
        rowInserts_not_accept cfg r hacc, List.nil_append]
      exact ih
    | true =>
      rw [List.filter_cons_of_pos (by simp [hacc]), insertionsOf_cons,
        insertionsOf_cons, ih]

lemma rowInserts_batch_irrelevant (mz Mz b1 b2 : ℕ) (kc : List String) :
    rowInserts ⟨mz, Mz, b1, kc⟩ = rowInserts ⟨mz, Mz, b2, kc⟩ := rfl

lemma insertionsOf_batch_irrelevant (mz Mz b1 b2 : ℕ) (kc : List String)
    (rows : List Row) :
    insertionsOf ⟨mz, Mz, b1, kc⟩ rows = insertionsOf ⟨mz, Mz, b2, kc⟩ rows := by
  unfold insertionsOf
  rw [rowInserts_batch_irrelevant mz Mz b1 b2 kc]

lemma acceptRow_row1 : acceptRow row1 = true := by
  simp only [acceptRow, row1]
  rw [decide_eq_true_eq]
  norm_num

lemma acceptRow_row2 : acceptRow row2 = true := by
  simp only [acceptRow, row2]
  rw [decide_eq_true_eq]
  norm_num

lemma acceptRow_row3 : acceptRow row3 = false := by
  simp only [acceptRow, row3]
  rw [decide_eq_false_iff_not]
  norm_num

/- ### Claim C3 (corrected): the reported counters -/

/-- Counterexample to claim C3: on the 3-row input with one invalid row
the final report prints a single figure, `rows_seen = 3`, as its "Tiled"
count; the rows actually tiled are 2, and no separate `skipped`/`tiled`
counters exist, so the report does not show `tiled = 2`. -/
theorem claim_C3_counterexample :
    reportedTiled (mainRun cfgZ6 emp scenario3) = 3 ∧
    (scenario3.filter acceptRow).length = 2 ∧
    reportedTiled (mainRun cfgZ6 emp scenario3) ≠ 2 := by
  have h := (mainRun_ok cfgZ6 emp scenario3 emp_corruptFree).2.2.1
  refine ⟨?_, by
    simp [scenario3, List.filter, acceptRow_row1, acceptRow_row2,
      acceptRow_row3], ?_⟩
  · rw [reportedTiled, h]
    rfl
  · rw [reportedTiled, h]
    decide

/-- Claim C3 amended: the run keeps one counter, `rows_seen`, counting
every input row (skipped ones included), and reports that figure as its
"Tiled" count; on the 3-row scenario it reports 3, not 2. -/
theorem claim_C3_amended (cfg : Config) (st0 : TileStore) (rows : List Row)
    (hcf : CorruptFree st0) :
    reportedTiled (mainRun cfg st0 rows) = rows.length :=
  (mainRun_ok cfg st0 rows hcf).2.2.1

/-- Witness for the amended C3 on the 3-row scenario. -/
theorem claim_C3_witness :
    reportedTiled (mainRun cfgZ6 emp scenario3) = scenario3.length :=
  claim_C3_amended cfgZ6 emp scenario3 (fun _ h => FileState.noConfusion h)

/- ### Claim C4: append-on-flush semantics -/

/-- Claim C4: flushing a set of records into a fresh tile and then a
second set into the now-existing file yields the concatenation of the
two sets (count = sum, first set first, order preserved); consequently,
running the whole pipeline twice into the same output directory doubles
every tile's feature count. -/
theorem claim_C4 :
    (∀ (st : TileStore) (b1 b2 : Buckets) (k : TileKey),
      CorruptFree st → st k = FileState.absent →
      content (flush_buckets (flush_buckets st b1).1 b2).1 k =
        bucketGet b1 k ++ bucketGet b2 k ∧
      (content (flush_buckets (flush_buckets st b1).1 b2).1 k).length =
        (bucketGet b1 k).length + (bucketGet b2 k).length) ∧
    (∀ (cfg : Config) (rows : List Row) (k : TileKey),
      (content (mainRun cfg (mainRun cfg emp rows).store rows).store k).length
        = 2 * (content (mainRun cfg emp rows).store k).length) := by
  constructor
  · intro st b1 b2 k hcf habs
    have h1 : content (flush_buckets st b1).1 k = bucketGet b1 k := by
      rw [content_flush st b1 hcf k]
      unfold content
      rw [habs]
      rfl
    have h2 : content (flush_buckets (flush_buckets st b1).1 b2).1 k =
        bucketGet b1 k ++ bucketGet b2 k := by
      rw [content_flush _ b2 (flush_corruptFree st b1 hcf) k, h1]
    exact ⟨h2, by rw [h2, List.length_append]⟩
  · intro cfg rows k
    have hs1 := mainRun_emp_store cfg rows
    have hcf1 : CorruptFree (mainRun cfg emp rows).store := by
      rw [hs1]
      exact storeOf_corruptFree _
    have h2 := (mainRun_ok cfg (mainRun cfg emp rows).store rows
      hcf1).2.2.2.2.2 k
    rw [h2, hs1, content_storeOf, List.length_append, two_mul]

/-- Witness for C4 at a fresh store and two one-record buckets. -/
theorem claim_C4_witness :
    content (flush_buckets (flush_buckets emp [(k00, f0)]).1 [(k00, f1)]).1 k00
      = bucketGet [(k00, f0)] k00 ++ bucketGet [(k00, f1)] k00 :=
  (claim_C4.1 emp [(k00, f0)] [(k00, f1)] k00
    (fun _ h => FileState.noConfusion h) rfl).1

/- ### Claim C6: invalid rows are skipped and leave no trace -/

/-- Claim C6: a row whose coordinates are missing, non-numeric or out of
range is skipped without failing the run — the step only increments
`rows_seen`, inserting nothing into any bucket — and the final tile
files of a run are exactly those of the run on the accepted rows alone,
so a skipped row's record never appears in any tile file. -/
theorem claim_C6 :
    (∀ (cfg : Config) (s : DriverState) (row : Row),
      s.err = none → acceptRow row = false →
      step cfg s row = { s with rows_seen := s.rows_seen + 1 }) ∧
    (∀ (cfg : Config) (rows : List Row),
      (mainRun cfg emp rows).store =
        (mainRun cfg emp (rows.filter acceptRow)).store) := by
  constructor
  · exact fun cfg s row he h => step_skip cfg s row he h
  · intro cfg rows
    rw [mainRun_emp_store, mainRun_emp_store, insertionsOf_filter]

/-- Witness for C6: the out-of-range row `(lon=200, lat=10)` only bumps
`rows_seen`. -/
theorem claim_C6_witness :
    step cfgZ6 (initState emp) row3 =
      { initState emp with rows_seen := (initState emp).rows_seen + 1 } :=
  claim_C6.1 cfgZ6 (initState emp) row3 rfl acceptRow_row3

/- ### Claim C7: batch size does not affect the final tiles -/

/-- Claim C7: runs over the same input into fresh output directories with
any two batch sizes (at least 1, since `rows_seen % batch` raises in
Python for `batch = 0`) produce identical final tile stores: the same
set of tile paths with the same features in the same order.  Identical
feature collections serialise to identical bytes, since the writer is
deterministic compact JSON plus gzip of that stream. -/
theorem claim_C7 (rows : List Row) (mz Mz : ℕ) (kc : List String)
    (b1 b2 : ℕ) (_hb1 : 1 ≤ b1) (_hb2 : 1 ≤ b2) :
    (mainRun ⟨mz, Mz, b1, kc⟩ emp rows).store =
      (mainRun ⟨mz, Mz, b2, kc⟩ emp rows).store := by
  rw [mainRun_emp_store, mainRun_emp_store,
    insertionsOf_batch_irrelevant mz Mz b1 b2 kc rows]

/-- Witness for C7: `batch = 1` versus `batch = 1000000`. -/
theorem claim_C7_witness :
    (mainRun ⟨5, 7, 1, []⟩ emp [row1]).store =
      (mainRun ⟨5, 7, 1000000, []⟩ emp [row1]).store :=
  claim_C7 [row1] 5 7 [] 1 1000000 (by decide) (by decide)

/- ### Claim C8 (corrected): the flush cadence -/

/-- Counterexample to claim C8: with `batch = 2` and input
`[valid, invalid, valid]` the accepted count reaches 2 — a multiple of
`batch` — at the third row, yet no periodic flush is ever invoked: the
driver tests `rows_seen % batch` (which counts skipped rows too), and a
skipped row `continue`s before the flush test is even reached. -/
theorem claim_C8_counterexample :
    cfgB2.batch = 2 ∧
    (rowsB2.filter acceptRow).length = 2 ∧
    (processRows cfgB2 emp rowsB2).flushLog = [] := by
  refine ⟨rfl, by
    simp [rowsB2, List.filter, acceptRow_row1, acceptRow_row2,
      acceptRow_row3], ?_⟩
  have h := (processRows_LoopInv cfgB2 emp rowsB2 emp_corruptFree).2.2.2.1
  rw [h]
  simp [triggers, rowsB2, cfgB2, acceptRow_row1, acceptRow_row2,
    acceptRow_row3]

/-- Claim C8 amended: the driver counts rows seen (accepted or not); a
periodic flush happens exactly after an accepted row whose 1-based
position in the stream (`rows_seen`) is a multiple of `batch` (the
`triggers` list), and one final unconditional flush always runs at end
of stream, leaving the bucket map empty even for a partial batch. -/
theorem claim_C8_amended (cfg : Config) (st0 : TileStore) (rows : List Row)
    (hcf : CorruptFree st0) :
    (mainRun cfg st0 rows).flushLog = triggers cfg 0 rows ∧
    (mainRun cfg st0 rows).buckets = [] :=
  ⟨(mainRun_ok cfg st0 rows hcf).2.2.2.1, (mainRun_ok cfg st0 rows hcf).2.1⟩

/-- Witness for the amended C8 on the `[valid, invalid, valid]` input. -/
theorem claim_C8_witness :
    (mainRun cfgB2 emp rowsB2).flushLog = triggers cfgB2 0 rowsB2 ∧
    (mainRun cfgB2 emp rowsB2).buckets = [] :=
  claim_C8_amended cfgB2 emp rowsB2 (fun _ h => FileState.noConfusion h)

/- ### Claim C1 (code bug): the mapper leaves the tile range -/

lemma tileX_zero_three : tileX 0 3 = 4 := by
  unfold tileX pyInt
  have hv : ((0 : ℝ) + 180.0) / 360.0 * 2 ^ (3 : ℕ) = 4 := by norm_num
  rw [hv, if_pos (by norm_num)]
  rw [Int.floor_eq_iff]
  norm_num

lemma mercS_75 : mercS 75 =
    Real.sqrt 2 / 2 * (Real.sqrt 3 / 2) + Real.sqrt 2 / 2 * (1 / 2) := by
  unfold mercS
  have hclamp : clampLat 75 = 75 := by
    unfold clampLat
    rw [min_eq_left (by norm_num), max_eq_left (by norm_num)]
  rw [hclamp]
  have hangle : (75 : ℝ) * (Real.pi / 180) = Real.pi / 4 + Real.pi / 6 := by
    ring
  rw [hangle, Real.sin_add, Real.sin_pi_div_four, Real.cos_pi_div_six,
    Real.cos_pi_div_four, Real.sin_pi_div_six]

lemma mercS_75_bounds : (0.96592 : ℝ) ≤ mercS 75 ∧ mercS 75 ≤ 0.96594 := by
  have h2sq : Real.sqrt 2 ^ 2 = 2 := Real.sq_sqrt (by norm_num)
  have h3sq : Real.sqrt 3 ^ 2 = 3 := Real.sq_sqrt (by norm_num)
  have h2nn : (0 : ℝ) ≤ Real.sqrt 2 := Real.sqrt_nonneg 2
  have h3nn : (0 : ℝ) ≤ Real.sqrt 3 := Real.sqrt_nonneg 3
  have h2lo : (1.41421 : ℝ) ≤ Real.sqrt 2 := by
    nlinarith [h2sq, h2nn, sq_nonneg (Real.sqrt 2 - 1.41421),
      sq_nonneg (Real.sqrt 2 + 1.41421)]
  have h2hi : Real.sqrt 2 ≤ 1.41422 := by
    nlinarith [h2sq, h2nn, sq_nonneg (Real.sqrt 2 - 1.41422),
      sq_nonneg (Real.sqrt 2 + 1.41422)]
  have h3lo : (1.73205 : ℝ) ≤ Real.sqrt 3 := by
    nlinarith [h3sq, h3nn, sq_nonneg (Real.sqrt 3 - 1.73205),
      sq_nonneg (Real.sqrt 3 + 1.73205)]
  have h3hi : Real.sqrt 3 ≤ 1.73206 := by
    nlinarith [h3sq, h3nn, sq_nonneg (Real.sqrt 3 - 1.73206),
      sq_nonneg (Real.sqrt 3 + 1.73206)]
  have hprod_lo : (1.41421 : ℝ) * 1.73205 ≤ Real.sqrt 2 * Real.sqrt 3 :=
    mul_le_mul h2lo h3lo (by norm_num) h2nn
  have hprod_hi : Real.sqrt 2 * Real.sqrt 3 ≤ 1.41422 * 1.73206 :=
    mul_le_mul h2hi h3hi h3nn (by norm_num)
  rw [mercS_75]
  constructor
  · nlinarith [hprod_lo, h2lo]
  · nlinarith [hprod_hi, h2hi]

lemma log_ratio_bounds :
    5 * Real.pi / 4 ≤ Real.log ((1 + mercS 75) / (1 - mercS 75)) ∧
    Real.log ((1 + mercS 75) / (1 - mercS 75)) < 3 * Real.pi / 2 := by
  obtain ⟨hs_lo, hs_hi⟩ := mercS_75_bounds
  have h1s_pos : (0 : ℝ) < 1 - mercS 75 := by linarith
  have hr_pos : (0 : ℝ) < (1 + mercS 75) / (1 - mercS 75) :=
    div_pos (by linarith) h1s_pos
  constructor
  · rw [Real.le_log_iff_exp_le hr_pos]
    have step1 : Real.exp (5 * Real.pi / 4) ≤ Real.exp 4 :=
      Real.exp_le_exp.mpr (by nlinarith [Real.pi_lt_d2])
    have step2 : Real.exp 4 = Real.exp 1 ^ 4 := by
      rw [show (4 : ℝ) = ((4 : ℕ) : ℝ) * 1 by norm_num, Real.exp_nat_mul]
    have step3 : Real.exp 1 ^ 4 ≤ 2.7182818286 ^ 4 :=
      pow_le_pow_left₀ (Real.exp_pos 1).le Real.exp_one_lt_d9.le 4
    have step4 : (2.7182818286 : ℝ) ^ 4 ≤ 54.599 := by norm_num
    have step5 : (54.599 : ℝ) ≤ (1 + mercS 75) / (1 - mercS 75) := by
      rw [le_div_iff₀ h1s_pos]
      linarith
    calc Real.exp (5 * Real.pi / 4) ≤ Real.exp 4 := step1
      _ = Real.exp 1 ^ 4 := step2
      _ ≤ 2.7182818286 ^ 4 := step3
      _ ≤ 54.599 := step4
      _ ≤ (1 + mercS 75) / (1 - mercS 75) := step5
  · rw [Real.log_lt_iff_lt_exp hr_pos]
    have hr_hi : (1 + mercS 75) / (1 - mercS 75) ≤ 58 := by
      rw [div_le_iff₀ h1s_pos]
      linarith
    have step1 : (58 : ℝ) < 2.7 ^ 4 * 1.7 := by norm_num
    have step2 : (2.7 : ℝ) ^ 4 * 1.7 ≤ Real.exp 1 ^ 4 * Real.exp 0.7 := by
      have ha : (2.7 : ℝ) ^ 4 ≤ Real.exp 1 ^ 4 :=
        pow_le_pow_left₀ (by norm_num)
          (le_trans (by norm_num) Real.exp_one_gt_d9.le) 4
      have hb : (1.7 : ℝ) ≤ Real.exp 0.7 := by
        have := Real.add_one_le_exp (0.7 : ℝ)
        linarith
      exact mul_le_mul ha hb (by norm_num) (pow_nonneg (Real.exp_pos 1).le 4)
    have step3 : Real.exp 1 ^ 4 * Real.exp 0.7 = Real.exp 4.7 := by
      rw [show Real.exp 1 ^ 4 = Real.exp 4 by
        rw [show (4 : ℝ) = ((4 : ℕ) : ℝ) * 1 by norm_num, Real.exp_nat_mul],
        ← Real.exp_add]
      norm_num
    have step4 : Real.exp 4.7 ≤ Real.exp (3 * Real.pi / 2) :=
      Real.exp_le_exp.mpr (by nlinarith [Real.pi_gt_d6])
    calc (1 + mercS 75) / (1 - mercS 75) ≤ 58 := hr_hi
      _ < 2.7 ^ 4 * 1.7 := step1
      _ ≤ Real.exp 1 ^ 4 * Real.exp 0.7 := step2
      _ = Real.exp 4.7 := step3
      _ ≤ Real.exp (3 * Real.pi / 2) := step4

lemma tileY_75_three : tileY 75 3 = -1 := by
  obtain ⟨hL_lo, hL_hi⟩ := log_ratio_bounds
  have hpi : (0 : ℝ) < Real.pi := Real.pi_pos
  have hq_lo : (5 : ℝ) / 4 ≤ Real.log ((1 + mercS 75) / (1 - mercS 75))
      / Real.pi := by
    rw [le_div_iff₀ hpi]
    linarith
  have hq_hi : Real.log ((1 + mercS 75) / (1 - mercS 75)) / Real.pi
      < 3 / 2 := by
    rw [div_lt_iff₀ hpi]
    linarith
  unfold tileY pyInt
  have hv : ((1.0 : ℝ) - Real.log ((1.0 + mercS 75) / (1.0 - mercS 75))
      / Real.pi) / 2.0 * 2 ^ (3 : ℕ) =
      (1 - Real.log ((1 + mercS 75) / (1 - mercS 75)) / Real.pi) * 4 := by
    norm_num
    ring
  rw [hv]
  have hle : (1 - Real.log ((1 + mercS 75) / (1 - mercS 75)) / Real.pi) * 4
      ≤ -1 := by linarith
  have hgt : (-2 : ℝ) <
      (1 - Real.log ((1 + mercS 75) / (1 - mercS 75)) / Real.pi) * 4 := by
    linarith
  rw [if_neg (by linarith)]
  rw [Int.ceil_eq_iff]
  constructor
  · push_cast
    linarith
  · push_cast
    linarith

/-- Evaluation of the code at the failing input for claim C1:
`lonlat_to_tile(0, 75, 3)` returns `(4, -1)`, so the claimed invariant
`0 <= y < 2^z` fails at a perfectly ordinary in-range input.  Line 23
computes `y` from `log((1+s)/(1-s)) = 2*atanh(sin lat)`, which is twice
the Web-Mercator quantity `asinh(tan lat) = atanh(sin lat)`; the
docstring ("Web Mercator") and the clamp constant `85.05112878` (the
latitude whose Mercator ordinate is exactly pi) show the intent, making
the missing factor 1/2 a slip.  Correct Web Mercator puts `lat = 75,
z = 3` in tile row `y = 1`. -/
theorem claim_C1_eval : lonlat_to_tile 0 75 3 = (4, -1) := by
  unfold lonlat_to_tile
  rw [tileX_zero_three, tileY_75_three]
